import Mathlib

/-!
# FastContents — a shallow embedding of `FastContentsCore`

This file embeds `packages/fastcontents/src/core/FastContentsCore.ts` in
Lean 4 and proves the specified properties of its pagination and navigation
logic.

The TypeScript class holds a `ContentState` (items, currentIndex, isLoading,
isInitialized, error, hasMore), a private continuation cursor, a private
offset, and a `Set` of listeners.  `loadMore` is `async`: it runs
synchronously up to `await fetchCallback(params)` and resumes when the
promise settles.  We model this by splitting `loadMore` into

  * `loadMore`   — the synchronous prefix (guard, `isLoading := true`,
    building the `PaginationParams`, issuing the fetch), recording the
    issued request in `fetchLog` and remembering it in `pending`;
  * `fetchResolve r` — the continuation that runs when the in-flight fetch
    resolves with result `r`;
  * `fetchReject e`  — the continuation that runs when it rejects with `e`.

`notifyListeners` is modelled by appending the current listener set to an
invocation log `invLog`: one log entry per listener callback invocation.
JavaScript truthiness of the optional cursor strings (`if (this.currentCursor)`,
`if (result.nextCursor)`) is modelled by `strTruthy`: `undefined` and the
empty string are falsy.

An `Event` type and `run` close the operations under arbitrary interleaving,
so reachability invariants quantify over every sequence of calls and fetch
completions.
-/

namespace FastContents

/-- A JavaScript `Error` object, reduced to its message. -/
structure ErrObj where
  message : String
deriving Repr, DecidableEq

/-- A thrown/rejected JavaScript value: either already an `Error` instance or
some other value, carried as its `String(...)` rendering. -/
inductive Thrown where
  | errObj (e : ErrObj)
  | nonErr (s : String)
deriving Repr, DecidableEq

/-- `error instanceof Error ? error : new Error(String(error))`
(FastContentsCore.ts line 106). -/
def wrapThrown : Thrown → ErrObj
  | .errObj e => e
  | .nonErr s => ⟨s⟩

/-- `PaginationParams` from types.ts: `offset`, `limit`, optional `cursor`. -/
structure PaginationParams where
  offset : Nat
  limit : Nat
  cursor : Option String
deriving Repr, DecidableEq

/-- `FetchResult<T>` from types.ts: `items`, optional `nextCursor`, `hasMore`. -/
structure FetchResult (T : Type) where
  items : List T
  nextCursor : Option String
  hasMore : Bool
deriving Repr, DecidableEq

/-- `ContentState<T>`: the observable state of the core, including the
`currentIndex` field maintained by `FastContentsCore`. -/
structure ContentState (T : Type) where
  items : List T
  currentIndex : Nat
  isLoading : Bool
  isInitialized : Bool
  error : Option ErrObj
  hasMore : Bool
deriving Repr, DecidableEq

/-- The numeric/threshold configuration after the constructor has applied its
`??` defaults (`initialBatchSize ?? 3`, `batchSize ?? 3`,
`scrollThreshold ?? 0.8`).  The scroll threshold is a JS number, modelled as
a rational. -/
structure Config where
  initialBatchSize : Nat
  batchSize : Nat
  scrollThreshold : ℚ
deriving Repr, DecidableEq

/-- The constructor's defaults: batch sizes 3 and 3, scroll threshold 0.8. -/
def defaultConfig : Config :=
  { initialBatchSize := 3, batchSize := 3, scrollThreshold := 8/10 }

/-- The whole machine: the observable `ContentState`, the private
`currentCursor` and `offset`, the in-flight fetch (if any) with its request
parameters, a log of every fetch request issued (one entry per invocation of
the fetch callback), the registered listeners (JS `Set`, kept duplicate-free
in insertion order), and a log of listener invocations. -/
structure Sys (T : Type) where
  core : ContentState T
  currentCursor : Option String
  offset : Nat
  pending : Option PaginationParams
  fetchLog : List PaginationParams
  listeners : List Nat
  invLog : List Nat
deriving Repr, DecidableEq

/-- JS truthiness of a `string | undefined`: `undefined` and `""` are falsy. -/
def strTruthy : Option String → Bool
  | none => false
  | some s => !s.isEmpty

/-- The state built by the constructor (FastContentsCore.ts lines 30-40). -/
def initState {T : Type} : ContentState T :=
  { items := [], currentIndex := 0, isLoading := false, isInitialized := false
  , error := none, hasMore := true }

/-- A freshly constructed core: empty state, no cursor, offset 0, no fetch in
flight, no listeners. -/
def initSys {T : Type} : Sys T :=
  { core := initState, currentCursor := none, offset := 0, pending := none
  , fetchLog := [], listeners := [], invLog := [] }

/-- `updateState(partial)`: merge into the state, then `notifyListeners()`
(each currently registered listener is invoked once, logged in `invLog`). -/
def updateState {T : Type} (f : ContentState T → ContentState T) (s : Sys T) : Sys T :=
  { s with core := f s.core, invLog := s.invLog ++ s.listeners }

/-- The `PaginationParams` that `loadMore` builds (lines 77-88): the current
offset, the initial batch size until the first success and the regular batch
size after, and the cursor only when `this.currentCursor` is truthy. -/
def paramsFor {T : Type} (cfg : Config) (s : Sys T) : PaginationParams :=
  { offset := s.offset
  , limit := if s.core.isInitialized then cfg.batchSize else cfg.initialBatchSize
  , cursor := if strTruthy s.currentCursor then s.currentCursor else none }

/-- The synchronous prefix of `loadMore()` (lines 69-90): return immediately
if a fetch is in flight or the data is exhausted; otherwise set
`isLoading := true`, clear `error`, build the params and invoke the fetch
callback (recorded in `pending` and `fetchLog`). -/
def loadMore {T : Type} (cfg : Config) (s : Sys T) : Sys T :=
  if s.core.isLoading = true ∨ s.core.hasMore = false then s
  else
    let s1 := updateState (fun st => { st with isLoading := true, error := none }) s
    let params := paramsFor cfg s1
    { s1 with pending := some params, fetchLog := s1.fetchLog ++ [params] }

/-- The continuation of `loadMore()` after `await fetchCallback` resolves
(lines 92-103): advance `offset` by the number of items actually returned,
adopt a truthy `nextCursor`, append the items, take `hasMore` from the
response, clear `isLoading`, set `isInitialized`.  When no fetch is in
flight there is nothing to resume. -/
def fetchResolve {T : Type} (r : FetchResult T) (s : Sys T) : Sys T :=
  match s.pending with
  | none => s
  | some _ =>
    let s1 := { s with offset := s.offset + r.items.length
                     , currentCursor :=
                         if strTruthy r.nextCursor then r.nextCursor else s.currentCursor
                     , pending := none }
    updateState (fun st =>
      { st with items := st.items ++ r.items, hasMore := r.hasMore
              , isLoading := false, isInitialized := true }) s1

/-- The continuation of `loadMore()` after `await fetchCallback` rejects
(lines 104-109): record the (wrapped) error and clear `isLoading`; nothing
else changes. -/
def fetchReject {T : Type} (e : Thrown) (s : Sys T) : Sys T :=
  match s.pending with
  | none => s
  | some _ =>
    updateState (fun st => { st with error := some (wrapThrown e), isLoading := false })
      { s with pending := none }

/-- Line 122, `currentIndex >= items.length - 1 && !hasMore`: already at (or
past) the end of known items with no more data.  JS arithmetic on numbers,
modelled over `Int`. -/
abbrev stopAtEnd {T : Type} (st : ContentState T) : Prop :=
  (st.items.length : Int) - 1 ≤ (st.currentIndex : Int) ∧ st.hasMore = false

/-- Line 130, `nextIndex > items.length - 1 && isLoading` with
`nextIndex = currentIndex + 1`: the advance would run past the buffer while a
fetch is in flight. -/
abbrev blockedPastEnd {T : Type} (st : ContentState T) : Prop :=
  (st.items.length : Int) - 1 < ((st.currentIndex + 1 : Nat) : Int) ∧ st.isLoading = true

/-- Lines 138-139, `itemsRemaining < 2 && hasMore && !isLoading` with
`itemsRemaining = items.length - (nextIndex + 1)`: fewer than 2 buffered
items lie strictly after the new index, more data exists, and no fetch is in
flight. -/
abbrev wantsMore {T : Type} (st : ContentState T) : Prop :=
  (st.items.length : Int) - (((st.currentIndex + 1 : Nat) : Int) + 1) < 2
    ∧ st.hasMore = true ∧ st.isLoading = false

/-- `goNext()` (lines 118-142).  It destructures the state once at entry and
uses that snapshot for every test: stop at the end of known items when
exhausted; refuse to run past the buffer while loading; otherwise advance
`currentIndex`, notify, and trigger `loadMore` when fewer than 2 items remain
ahead, more data exists and no fetch is in flight. -/
def goNext {T : Type} (cfg : Config) (s : Sys T) : Sys T :=
  let st := s.core
  if stopAtEnd st then s
  else if blockedPastEnd st then s
  else
    let s1 := updateState (fun c => { c with currentIndex := st.currentIndex + 1 }) s
    if wantsMore st then loadMore cfg s1 else s1

/-- `goPrev()` (lines 148-152): decrement `currentIndex` when positive,
otherwise do nothing. -/
def goPrev {T : Type} (s : Sys T) : Sys T :=
  if 0 < s.core.currentIndex then
    updateState (fun c => { c with currentIndex := c.currentIndex - 1 }) s
  else s

/-- `subscribe(listener)` (lines 47-52): add to the listener `Set` (a JS
`Set` ignores a duplicate add). -/
def subscribe {T : Type} (l : Nat) (s : Sys T) : Sys T :=
  if l ∈ s.listeners then s else { s with listeners := s.listeners ++ [l] }

/-- The unsubscribe closure returned by `subscribe`: `Set.delete(listener)`. -/
def unsubscribe {T : Type} (l : Nat) (s : Sys T) : Sys T :=
  { s with listeners := s.listeners.filter (fun x => x ≠ l) }

/-- `destroy()` (lines 154-156): `this.listeners.clear()`. -/
def destroy {T : Type} (s : Sys T) : Sys T :=
  { s with listeners := [] }

/-- One externally observable event: a public method call, or the settling of
the in-flight fetch. -/
inductive Event (T : Type) where
  | loadMore
  | goNext
  | goPrev
  | resolve (r : FetchResult T)
  | reject (e : Thrown)
  | subscribe (l : Nat)
  | unsubscribe (l : Nat)
  | destroy
deriving Repr, DecidableEq

/-- Apply one event to the machine. -/
def step {T : Type} (cfg : Config) (s : Sys T) : Event T → Sys T
  | .loadMore => loadMore cfg s
  | .goNext => goNext cfg s
  | .goPrev => goPrev s
  | .resolve r => fetchResolve r s
  | .reject e => fetchReject e s
  | .subscribe l => subscribe l s
  | .unsubscribe l => unsubscribe l s
  | .destroy => destroy s

/-- Run a sequence of events. -/
def run {T : Type} (cfg : Config) : Sys T → List (Event T) → Sys T
  | s, [] => s
  | s, e :: es => run cfg (step cfg s e) es

/-- Modelled from the spec: the package README documents a
`shouldLoadMore(scrollTop, scrollHeight, clientHeight)` method on
`FastContentsCore` ("Scroll Detection Logic: the shouldLoadMore() method
provides the calculation to check if the user has scrolled close enough to
the bottom of the list (based on scrollThreshold) to trigger the next data
fetch"), but its implementation is not among the repository files here.
Following the spec: a pure predicate that is false while loading or when
exhausted, and otherwise compares the scroll ratio against the configured
threshold. -/
def shouldLoadMore {T : Type} (cfg : Config) (s : Sys T)
    (scrollTop scrollHeight clientHeight : ℚ) : Bool :=
  if s.core.isLoading = true ∨ s.core.hasMore = false then false
  else decide ((scrollTop + clientHeight) / scrollHeight ≥ cfg.scrollThreshold)

/-- The in-source scroll handler of `FastContent.tsx` (`handleScroll`):
`scrollPercentage >= scrollThreshold && !isLoading && hasMore` with
`scrollPercentage = (scrollTop + clientHeight) / scrollHeight`. -/
def handleScrollFires (threshold : ℚ) (isLoading hasMore : Bool)
    (scrollTop scrollHeight clientHeight : ℚ) : Bool :=
  decide ((scrollTop + clientHeight) / scrollHeight ≥ threshold) && !isLoading && hasMore

end FastContents

namespace FastContents

/-! ## Helper lemmas -/

/-- A predicate preserved by every step is preserved by every run. -/
theorem run_preserve {T : Type} (cfg : Config) (P : Sys T → Prop)
    (hstep : ∀ s ev, P s → P (step cfg s ev)) :
    ∀ (evs : List (Event T)) (s : Sys T), P s → P (run cfg s evs)
  | [], _, h => h
  | e :: es, s, h => run_preserve cfg P hstep es _ (hstep s e h)

/-- Once the data is exhausted and no fetch is in flight, no step reopens the
stream, starts a fetch, or grows the fetch log. -/
theorem step_exhausted {T : Type} (cfg : Config) (s : Sys T) (ev : Event T)
    (hm : s.core.hasMore = false) (hp : s.pending = none) :
    (step cfg s ev).core.hasMore = false ∧ (step cfg s ev).pending = none
      ∧ (step cfg s ev).fetchLog = s.fetchLog := by
  cases ev
  case loadMore => simp [step, loadMore, hm, hp]
  case goNext =>
    simp only [step, goNext]
    split
    · exact ⟨hm, hp, rfl⟩
    · split
      · exact ⟨hm, hp, rfl⟩
      · simp [updateState, wantsMore, hm, hp]
  case goPrev =>
    simp only [step, goPrev]
    split <;> simp [updateState, hm, hp]
  case resolve r => simp [step, fetchResolve, hm, hp]
  case reject e => simp [step, fetchReject, hm, hp]
  case subscribe l =>
    simp only [step, subscribe]
    split <;> simp [hm, hp]
  case unsubscribe l => simp [step, unsubscribe, hm, hp]
  case destroy => simp [step, destroy, hm, hp]

end FastContents

namespace FastContents

/-! ## C1 -/

/-- C1: `loadMore` resolves immediately as a no-op (zero fetch-callback
invocations, entire state unchanged) whenever a fetch is in flight or
`hasMore` is false; hence two `loadMore` calls issued before the first fetch
settles invoke the fetch callback exactly once, and once `hasMore` is false
with no fetch in flight, no sequence of further operations ever invokes the
fetch callback again. -/
theorem loadMore_noop_and_single_flight {T : Type} (cfg : Config) :
    (∀ s : Sys T, s.core.isLoading = true ∨ s.core.hasMore = false →
        loadMore cfg s = s)
    ∧ (∀ s : Sys T, s.core.isLoading = false → s.core.hasMore = true →
        (loadMore cfg (loadMore cfg s)).fetchLog.length = s.fetchLog.length + 1)
    ∧ (∀ (s : Sys T) (evs : List (Event T)),
        s.core.hasMore = false → s.pending = none →
        (run cfg s evs).fetchLog = s.fetchLog) := by
  refine ⟨fun s hgate => ?_, fun s h1 h2 => ?_, fun s evs hm hp => ?_⟩
  · unfold loadMore
    exact if_pos hgate
  · simp [loadMore, updateState, paramsFor, h1, h2]
  · have h := run_preserve cfg
      (fun t => t.core.hasMore = false ∧ t.pending = none ∧ t.fetchLog = s.fetchLog)
      (fun t ev ht => by
        have hs := step_exhausted cfg t ev ht.1 ht.2.1
        exact ⟨hs.1, hs.2.1, hs.2.2.trans ht.2.2⟩)
      evs s ⟨hm, hp, rfl⟩
    exact h.2.2

/-- A core that is mid-fetch. -/
def sBusy : Sys Nat :=
  { (initSys : Sys Nat) with core := { (initState : ContentState Nat) with isLoading := true } }

/-- A core whose stream is exhausted. -/
def sDone : Sys Nat :=
  { (initSys : Sys Nat) with core := { (initState : ContentState Nat) with hasMore := false } }

theorem loadMore_noop_and_single_flight_witness :
    loadMore defaultConfig sBusy = sBusy
    ∧ (loadMore defaultConfig (loadMore defaultConfig (initSys (T := Nat)))).fetchLog.length
        = (initSys (T := Nat)).fetchLog.length + 1
    ∧ (run defaultConfig sDone
        [Event.loadMore, Event.goNext, Event.goPrev,
         Event.resolve ⟨[9], none, true⟩, Event.reject (Thrown.nonErr "boom"),
         Event.loadMore]).fetchLog = sDone.fetchLog := by
  obtain ⟨a, b, c⟩ := loadMore_noop_and_single_flight (T := Nat) defaultConfig
  exact ⟨a sBusy (Or.inl (by decide)), b initSys rfl rfl, c sDone _ (by decide) rfl⟩

/-! ## C9 -/

/-- C9: `goPrev` is a no-op when `currentIndex` is 0; otherwise it
synchronously decrements `currentIndex` by exactly one, never invokes the
fetch callback, and leaves every other state field and the internal offset
and cursor unchanged. -/
theorem goPrev_decrements_or_noop {T : Type} (s : Sys T) :
    (s.core.currentIndex = 0 → goPrev s = s)
    ∧ (0 < s.core.currentIndex →
        (goPrev s).core.currentIndex = s.core.currentIndex - 1
        ∧ (goPrev s).fetchLog = s.fetchLog
        ∧ (goPrev s).core.items = s.core.items
        ∧ (goPrev s).core.isLoading = s.core.isLoading
        ∧ (goPrev s).core.isInitialized = s.core.isInitialized
        ∧ (goPrev s).core.error = s.core.error
        ∧ (goPrev s).core.hasMore = s.core.hasMore
        ∧ (goPrev s).offset = s.offset
        ∧ (goPrev s).currentCursor = s.currentCursor
        ∧ (goPrev s).pending = s.pending) := by
  constructor
  · intro h0
    simp [goPrev, h0]
  · intro hpos
    simp [goPrev, updateState, hpos]

/-- A core positioned at index 2 over a three-item buffer. -/
def sNav : Sys Nat :=
  { core := { items := [10, 20, 30], currentIndex := 2, isLoading := false
            , isInitialized := true, error := none, hasMore := true }
  , currentCursor := none, offset := 3, pending := none
  , fetchLog := [], listeners := [], invLog := [] }

theorem goPrev_decrements_or_noop_witness :
    goPrev (initSys (T := Nat)) = initSys
    ∧ (goPrev sNav).core.currentIndex = sNav.core.currentIndex - 1
    ∧ (goPrev sNav).fetchLog = sNav.fetchLog
    ∧ (goPrev sNav).core.items = sNav.core.items
    ∧ (goPrev sNav).core.isLoading = sNav.core.isLoading
    ∧ (goPrev sNav).core.isInitialized = sNav.core.isInitialized
    ∧ (goPrev sNav).core.error = sNav.core.error
    ∧ (goPrev sNav).core.hasMore = sNav.core.hasMore
    ∧ (goPrev sNav).offset = sNav.offset
    ∧ (goPrev sNav).currentCursor = sNav.currentCursor
    ∧ (goPrev sNav).pending = sNav.pending := by
  refine ⟨(goPrev_decrements_or_noop (initSys (T := Nat))).1 rfl, ?_⟩
  exact (goPrev_decrements_or_noop sNav).2 (by decide)

end FastContents

namespace FastContents

/-! ## C2 -/

/-- On every step of a run, the private offset stays equal to the number of
buffered items. -/
theorem step_offset_eq_length {T : Type} (cfg : Config) (s : Sys T) (ev : Event T)
    (h : s.offset = s.core.items.length) :
    (step cfg s ev).offset = (step cfg s ev).core.items.length := by
  cases ev
  case loadMore =>
    simp only [step, loadMore]
    split
    · exact h
    · simp [updateState, h]
  case goNext =>
    simp only [step, goNext]
    split
    · exact h
    · split
      · exact h
      · split
        · simp only [loadMore]
          split <;> simp [updateState, h]
        · simp [updateState, h]
  case goPrev =>
    simp only [step, goPrev]
    split <;> simp [updateState, h]
  case resolve r =>
    simp only [step, fetchResolve]
    split
    · exact h
    · simp [updateState, h]
  case reject e =>
    simp only [step, fetchReject]
    split
    · exact h
    · simp [updateState, h]
  case subscribe l =>
    simp only [step, subscribe]
    split <;> simp [h]
  case unsubscribe l => simpa [step, unsubscribe] using h
  case destroy => simpa [step, destroy] using h

/-- C2: a successful fetch appends the returned items after the existing
buffer in order, advances the private offset by the number of items actually
returned, takes `hasMore` from the response, clears `isLoading` and sets
`isInitialized`; each issued fetch request carries the current offset, and in
every reachable state that offset equals the number of items accumulated so
far — so the offset supplied to fetch call N+1 is exactly the number of items
appended by calls 1..N, even across partial or empty pages. -/
theorem fetchResolve_appends_offset_tracks {T : Type} (cfg : Config) :
    (∀ (s : Sys T) (p : PaginationParams) (r : FetchResult T), s.pending = some p →
        (fetchResolve r s).core.items = s.core.items ++ r.items
        ∧ (fetchResolve r s).offset = s.offset + r.items.length
        ∧ (fetchResolve r s).core.hasMore = r.hasMore
        ∧ (fetchResolve r s).core.isLoading = false
        ∧ (fetchResolve r s).core.isInitialized = true)
    ∧ (∀ s : Sys T, s.core.isLoading = false → s.core.hasMore = true →
        (loadMore cfg s).fetchLog = s.fetchLog ++ [paramsFor cfg s]
        ∧ (paramsFor cfg s).offset = s.offset)
    ∧ (∀ evs : List (Event T),
        (run cfg initSys evs).offset = (run cfg initSys evs).core.items.length) := by
  refine ⟨fun s p r hp => ?_, fun s h1 h2 => ?_, fun evs => ?_⟩
  · simp [fetchResolve, updateState, hp]
  · constructor
    · simp [loadMore, updateState, paramsFor, h1, h2]
    · rfl
  · exact run_preserve cfg (fun t => t.offset = t.core.items.length)
      (fun t ev ht => step_offset_eq_length cfg t ev ht) evs initSys rfl

/-- The first page of the test suite's mock data (ids 1-3), with more to come. -/
def pageA : FetchResult Nat := { items := [1, 2, 3], nextCursor := none, hasMore := true }

/-- The second page of the test suite's mock data (ids 4-6), the last one. -/
def pageB : FetchResult Nat := { items := [4, 5, 6], nextCursor := none, hasMore := false }

/-- A core that is mid-fetch, the request parameters remembered in flight. -/
def sFetching : Sys Nat :=
  { (initSys : Sys Nat) with
    core := { (initState : ContentState Nat) with isLoading := true }
  , pending := some { offset := 0, limit := 3, cursor := none } }

theorem fetchResolve_appends_offset_tracks_witness :
    (fetchResolve pageA sFetching).core.items = sFetching.core.items ++ pageA.items
    ∧ (fetchResolve pageA sFetching).offset = sFetching.offset + pageA.items.length
    ∧ (fetchResolve pageA sFetching).core.hasMore = pageA.hasMore
    ∧ (fetchResolve pageA sFetching).core.isLoading = false
    ∧ (fetchResolve pageA sFetching).core.isInitialized = true
    ∧ (loadMore defaultConfig sNav).fetchLog = sNav.fetchLog ++ [paramsFor defaultConfig sNav]
    ∧ (paramsFor defaultConfig sNav).offset = sNav.offset
    ∧ (run defaultConfig initSys [Event.loadMore, Event.resolve pageA,
        Event.goNext, Event.resolve pageB]).offset
      = (run defaultConfig initSys [Event.loadMore, Event.resolve pageA,
        Event.goNext, Event.resolve pageB]).core.items.length := by
  obtain ⟨a, b, c⟩ := fetchResolve_appends_offset_tracks (T := Nat) defaultConfig
  obtain ⟨a1, a2, a3, a4, a5⟩ := a sFetching _ pageA rfl
  obtain ⟨b1, b2⟩ := b sNav (by decide) (by decide)
  exact ⟨a1, a2, a3, a4, a5, b1, b2, c _⟩

/-! ## C4 -/

/-- Every reachable in-flight request carries exactly the offset, limit and
cursor that `paramsFor` derives from the current private state. -/
theorem step_pending_consistent {T : Type} (cfg : Config) (s : Sys T) (ev : Event T)
    (h : ∀ p, s.pending = some p → p = paramsFor cfg s) :
    ∀ p, (step cfg s ev).pending = some p → p = paramsFor cfg (step cfg s ev) := by
  cases ev
  case loadMore =>
    simp only [step, loadMore]
    split
    · exact h
    · intro p hp
      simp [updateState, paramsFor] at hp ⊢
      simp [hp]
  case goNext =>
    simp only [step, goNext]
    split
    · exact h
    · split
      · exact h
      · split
        · simp only [loadMore]
          split
          · intro p hp
            have := h p hp
            simp [this, updateState, paramsFor]
          · intro p hp
            simp [updateState, paramsFor] at hp ⊢
            simp [hp]
        · intro p hp
          have := h p hp
          simp [this, updateState, paramsFor]
  case goPrev =>
    simp only [step, goPrev]
    split
    · intro p hp
      have := h p hp
      simp [this, updateState, paramsFor]
    · exact h
  case resolve r =>
    simp only [step, fetchResolve]
    split
    · exact h
    · simp [updateState]
  case reject e =>
    simp only [step, fetchReject]
    split
    · exact h
    · simp [updateState]
  case subscribe l =>
    simp only [step, subscribe]
    split
    · exact h
    · intro p hp
      have := h p hp
      simp [this, paramsFor]
  case unsubscribe l =>
    intro p hp
    have := h p (by simpa [step, unsubscribe] using hp)
    simp [this, step, unsubscribe, paramsFor]
  case destroy =>
    intro p hp
    have := h p (by simpa [step, destroy] using hp)
    simp [this, step, destroy, paramsFor]

/-- C4: a rejected fetch records the error (wrapping non-`Error` values),
clears `isLoading`, and leaves the buffer, offset, cursor, `hasMore`,
`isInitialized` — and therefore the parameters the next `loadMore` would
send — completely unchanged; in every reachable state the in-flight request
equals `paramsFor` of the current state, so a retry after a failure issues a
fetch with identical parameters. -/
theorem fetchReject_preserves_pagination {T : Type} (cfg : Config) :
    (∀ (s : Sys T) (p : PaginationParams) (e : Thrown), s.pending = some p →
        (fetchReject e s).core.error = some (wrapThrown e)
        ∧ (fetchReject e s).core.isLoading = false
        ∧ (fetchReject e s).core.items = s.core.items
        ∧ (fetchReject e s).offset = s.offset
        ∧ (fetchReject e s).currentCursor = s.currentCursor
        ∧ (fetchReject e s).core.hasMore = s.core.hasMore
        ∧ (fetchReject e s).core.isInitialized = s.core.isInitialized
        ∧ (fetchReject e s).pending = none
        ∧ paramsFor cfg (fetchReject e s) = paramsFor cfg s)
    ∧ (∀ (s : Sys T) (p : PaginationParams) (e : Thrown),
        s.pending = some p → s.core.hasMore = true →
        (loadMore cfg (fetchReject e s)).fetchLog
          = (fetchReject e s).fetchLog ++ [paramsFor cfg s])
    ∧ (∀ (evs : List (Event T)) (p : PaginationParams),
        (run cfg initSys evs).pending = some p →
        p = paramsFor cfg (run cfg initSys evs)) := by
  refine ⟨fun s p e hp => ?_, fun s p e hp hm => ?_, fun evs p hp => ?_⟩
  · simp [fetchReject, updateState, paramsFor, hp]
  · have hframe : paramsFor cfg (fetchReject e s) = paramsFor cfg s := by
      simp [fetchReject, updateState, paramsFor, hp]
    have h1 : (fetchReject e s).core.isLoading = false := by
      simp [fetchReject, updateState, hp]
    have h2 : (fetchReject e s).core.hasMore = true := by
      simp [fetchReject, updateState, hp, hm]
    rw [← hframe]
    simp [loadMore, updateState, paramsFor, h1, h2]
  · exact run_preserve cfg
      (fun t => ∀ q, t.pending = some q → q = paramsFor cfg t)
      (fun t ev ht => step_pending_consistent cfg t ev ht)
      evs initSys (by simp [initSys]) p hp

theorem fetchReject_preserves_pagination_witness :
    (fetchReject (Thrown.nonErr "boom") sFetching).core.error
        = some (wrapThrown (Thrown.nonErr "boom"))
    ∧ (fetchReject (Thrown.nonErr "boom") sFetching).core.isLoading = false
    ∧ (fetchReject (Thrown.nonErr "boom") sFetching).core.items = sFetching.core.items
    ∧ (fetchReject (Thrown.nonErr "boom") sFetching).offset = sFetching.offset
    ∧ (fetchReject (Thrown.nonErr "boom") sFetching).currentCursor = sFetching.currentCursor
    ∧ (fetchReject (Thrown.nonErr "boom") sFetching).core.hasMore = sFetching.core.hasMore
    ∧ (fetchReject (Thrown.nonErr "boom") sFetching).core.isInitialized
        = sFetching.core.isInitialized
    ∧ (fetchReject (Thrown.nonErr "boom") sFetching).pending = none
    ∧ paramsFor defaultConfig (fetchReject (Thrown.nonErr "boom") sFetching)
        = paramsFor defaultConfig sFetching
    ∧ (loadMore defaultConfig (fetchReject (Thrown.nonErr "boom") sFetching)).fetchLog
        = (fetchReject (Thrown.nonErr "boom") sFetching).fetchLog
            ++ [paramsFor defaultConfig sFetching]
    ∧ ({ offset := 0, limit := 3, cursor := none } : PaginationParams)
        = paramsFor defaultConfig (run defaultConfig initSys [Event.loadMore (T := Nat)]) := by
  obtain ⟨a, b, c⟩ := fetchReject_preserves_pagination (T := Nat) defaultConfig
  obtain ⟨a1, a2, a3, a4, a5, a6, a7, a8, a9⟩ := a sFetching _ (Thrown.nonErr "boom") rfl
  refine ⟨a1, a2, a3, a4, a5, a6, a7, a8, a9,
    b sFetching _ (Thrown.nonErr "boom") rfl (by decide), ?_⟩
  exact c [Event.loadMore] { offset := 0, limit := 3, cursor := none } (by decide)

end FastContents

namespace FastContents

/-- An exhausted core positioned at the last buffered item. -/
def sEndStop : Sys Nat :=
  { core := { items := [10, 20, 30], currentIndex := 2, isLoading := false
            , isInitialized := true, error := none, hasMore := false }
  , currentCursor := none, offset := 3, pending := none
  , fetchLog := [], listeners := [], invLog := [] }

/-! ## C3 -/

/-- C3: when `goNext` does advance `currentIndex` (neither early return
fires), it invokes the fetch callback if and only if fewer than 2 buffered
items lie strictly after the new index, `hasMore` is true and no fetch is in
flight — the look-ahead depth is the fixed constant 2; and the spec's
two-page scenario (batch size 3, 6 items) plays out exactly: the initial
load buffers 3 items at index 0, the first `goNext` (1 item remaining ahead)
issues the second fetch after which 6 items are buffered, and the next
`goNext` (3 items remaining ahead) issues none. -/
theorem goNext_lookahead_trigger {T : Type} (cfg : Config) :
    (∀ s : Sys T, ¬stopAtEnd s.core → ¬blockedPastEnd s.core →
      (goNext cfg s).core.currentIndex = s.core.currentIndex + 1
      ∧ ((goNext cfg s).fetchLog.length = s.fetchLog.length + 1 ↔ wantsMore s.core)
      ∧ (¬wantsMore s.core → (goNext cfg s).fetchLog = s.fetchLog)
      ∧ (wantsMore s.core ↔
          (s.core.items.length : Int) - ((s.core.currentIndex : Int) + 2) < 2
          ∧ s.core.hasMore = true ∧ s.core.isLoading = false))
    ∧ ((run defaultConfig initSys [Event.loadMore, Event.resolve pageA]).core.items.length = 3
      ∧ (run defaultConfig initSys [Event.loadMore, Event.resolve pageA]).core.currentIndex = 0
      ∧ (run defaultConfig initSys [Event.loadMore, Event.resolve pageA]).fetchLog.length = 1
      ∧ (run defaultConfig initSys
          [Event.loadMore, Event.resolve pageA, Event.goNext]).core.currentIndex = 1
      ∧ (run defaultConfig initSys
          [Event.loadMore, Event.resolve pageA, Event.goNext]).fetchLog.length = 2
      ∧ (run defaultConfig initSys
          [Event.loadMore, Event.resolve pageA, Event.goNext,
           Event.resolve pageB]).core.items.length = 6
      ∧ (run defaultConfig initSys
          [Event.loadMore, Event.resolve pageA, Event.goNext, Event.resolve pageB,
           Event.goNext]).core.currentIndex = 2
      ∧ (run defaultConfig initSys
          [Event.loadMore, Event.resolve pageA, Event.goNext, Event.resolve pageB,
           Event.goNext]).fetchLog.length = 2) := by
  constructor
  · intro s hg1 hg2
    have hidx : (goNext cfg s).core.currentIndex = s.core.currentIndex + 1 := by
      by_cases hw : wantsMore s.core
      · simp only [goNext, if_neg hg1, if_neg hg2, if_pos hw]
        simp [loadMore, updateState, hw.2.1, hw.2.2]
      · simp only [goNext, if_neg hg1, if_neg hg2, if_neg hw]
        simp [updateState]
    refine ⟨hidx, ?_, ?_, ?_⟩
    · by_cases hw : wantsMore s.core
      · have hlen : (goNext cfg s).fetchLog.length = s.fetchLog.length + 1 := by
          simp only [goNext, if_neg hg1, if_neg hg2, if_pos hw]
          simp [loadMore, updateState, hw.2.1, hw.2.2]
        exact ⟨fun _ => hw, fun _ => hlen⟩
      · have hlog : (goNext cfg s).fetchLog = s.fetchLog := by
          simp only [goNext, if_neg hg1, if_neg hg2, if_neg hw]
          rfl
        refine ⟨fun hgrow => ?_, fun hw' => absurd hw' hw⟩
        rw [hlog] at hgrow
        omega
    · intro hw
      simp only [goNext, if_neg hg1, if_neg hg2, if_neg hw]
      rfl
    · constructor
      · intro ⟨x, h⟩
        exact ⟨by push_cast at x ⊢; omega, h⟩
      · intro ⟨x, h⟩
        exact ⟨by push_cast at x ⊢; omega, h⟩
  · refine ⟨?_, ?_, ?_, ?_, ?_, ?_, ?_, ?_⟩ <;> decide

theorem goNext_lookahead_trigger_witness :
    (goNext defaultConfig sNav).core.currentIndex = sNav.core.currentIndex + 1
    ∧ (goNext defaultConfig sNav).fetchLog.length = sNav.fetchLog.length + 1
    ∧ (run defaultConfig initSys [Event.loadMore, Event.resolve pageA]).core.items.length = 3 := by
  obtain ⟨a, b⟩ := goNext_lookahead_trigger (T := Nat) defaultConfig
  obtain ⟨a1, a2, -, -⟩ := a sNav (by decide) (by decide)
  exact ⟨a1, a2.mpr (by decide), b.1⟩

/-! ## C5 -/

/-- C5 as stated is false on the code: from a fresh core, load a single-item
page (`hasMore` still true), call `goNext` once — it advances `currentIndex`
to 1, past the only buffered item, and triggers the look-ahead fetch — then
let that fetch resolve with zero items and `hasMore := false`.  The state
reached has `hasMore = false`, one buffered item, and
`currentIndex = 1 > 0 = items.length - 1`. -/
theorem goNext_exhausted_clamp_cex :
    (run defaultConfig initSys
      [Event.loadMore, Event.resolve ⟨[7], none, true⟩,
       Event.goNext, Event.resolve ⟨[], none, false⟩]).core.hasMore = false
    ∧ (run defaultConfig initSys
      [Event.loadMore, Event.resolve ⟨[7], none, true⟩,
       Event.goNext, Event.resolve ⟨[], none, false⟩]).core.items.length = 1
    ∧ (run defaultConfig initSys
      [Event.loadMore, Event.resolve ⟨[7], none, true⟩,
       Event.goNext, Event.resolve ⟨[], none, false⟩]).core.currentIndex = 1
    ∧ ¬((run defaultConfig initSys
      [Event.loadMore, Event.resolve ⟨[7], none, true⟩,
       Event.goNext, Event.resolve ⟨[], none, false⟩]).core.currentIndex
        ≤ (run defaultConfig initSys
      [Event.loadMore, Event.resolve ⟨[7], none, true⟩,
       Event.goNext, Event.resolve ⟨[], none, false⟩]).core.items.length - 1) := by
  decide

/-- C5 amended: while `hasMore` is false, navigation itself clamps at the
buffer end — one `goNext` never raises `currentIndex` above the larger of
its current value and `items.length - 1`, and it is a strict no-op (the
whole state unchanged) whenever `currentIndex` is at or past
`items.length - 1`, in particular at `currentIndex = items.length - 1`.
But `currentIndex` may already exceed `items.length - 1` at the moment a
response sets `hasMore` to false, because `goNext` advances past the
buffered items while `hasMore` is still true and the in-flight look-ahead
fetch may resolve with zero items. -/
theorem goNext_exhausted_clamp {T : Type} (cfg : Config) (s : Sys T)
    (hm : s.core.hasMore = false) :
    ((s.core.items.length : Int) - 1 ≤ (s.core.currentIndex : Int) → goNext cfg s = s)
    ∧ (s.core.currentIndex + 1 = s.core.items.length → goNext cfg s = s)
    ∧ (goNext cfg s).core.currentIndex
        ≤ max s.core.currentIndex (s.core.items.length - 1) := by
  have hstep : ∀ hge : (s.core.items.length : Int) - 1 ≤ (s.core.currentIndex : Int),
      goNext cfg s = s := by
    intro hge
    simp only [goNext]
    exact if_pos ⟨hge, hm⟩
  refine ⟨hstep, fun heq => hstep (by omega), ?_⟩
  by_cases hA : (s.core.items.length : Int) - 1 ≤ (s.core.currentIndex : Int)
  · rw [hstep hA]
    exact le_max_left _ _
  · have hg1 : ¬stopAtEnd s.core := fun h => hA h.1
    have hg2 : ¬blockedPastEnd s.core := fun h => absurd h.1 (by omega)
    have hw : ¬wantsMore s.core := by simp [wantsMore, hm]
    simp only [goNext, if_neg hg1, if_neg hg2, if_neg hw, updateState]
    simp only [not_le] at hA
    have : s.core.currentIndex + 2 ≤ s.core.items.length := by omega
    simp
    omega

theorem goNext_exhausted_clamp_witness :
    goNext defaultConfig sEndStop = sEndStop
    ∧ goNext defaultConfig sEndStop = sEndStop
    ∧ (goNext defaultConfig sEndStop).core.currentIndex
        ≤ max sEndStop.core.currentIndex (sEndStop.core.items.length - 1) := by
  have h := goNext_exhausted_clamp defaultConfig sEndStop (by decide)
  exact ⟨h.1 (by decide), h.2.1 (by decide), h.2.2⟩

/-! ## C10 -/

/-- C10 as stated is false on the code for the empty-buffer case: on a fresh
core (`hasMore` true, `isLoading` false, no buffered items) `goNext`
increments `currentIndex` to 1, which is not `items.length = 0`. -/
theorem goNext_overshoot_cex :
    (initSys (T := Nat)).core.hasMore = true
    ∧ (initSys (T := Nat)).core.isLoading = false
    ∧ (initSys (T := Nat)).core.items.length = 0
    ∧ (goNext defaultConfig (initSys (T := Nat))).core.currentIndex = 1
    ∧ (goNext defaultConfig (initSys (T := Nat))).core.currentIndex
        ≠ (goNext defaultConfig (initSys (T := Nat))).core.items.length := by
  decide

/-- C10 amended: whenever `hasMore` is true and no fetch is in flight,
`goNext` increments `currentIndex` by one — even at the last buffered item
or with an empty buffer — and leaves `items` untouched (the same call's
triggered fetch has not yet resolved).  Called at the last buffered item the
new `currentIndex` equals `items.length`, one past the end; in general
whenever `items.length ≤ currentIndex + 1` the new index lies past the end
of the buffer, so indexing `items` at it yields no item until a later fetch
resolution appends items (with an empty buffer the new index is
`currentIndex + 1`, which exceeds `items.length` rather than equalling it). -/
theorem goNext_overshoot {T : Type} (cfg : Config) (s : Sys T)
    (hm : s.core.hasMore = true) (hl : s.core.isLoading = false) :
    (goNext cfg s).core.currentIndex = s.core.currentIndex + 1
    ∧ (goNext cfg s).core.items = s.core.items
    ∧ (s.core.currentIndex + 1 = s.core.items.length →
        (goNext cfg s).core.currentIndex = s.core.items.length)
    ∧ (s.core.items.length ≤ s.core.currentIndex + 1 →
        (goNext cfg s).core.items[(goNext cfg s).core.currentIndex]? = none) := by
  have hg1 : ¬stopAtEnd s.core := by simp [stopAtEnd, hm]
  have hg2 : ¬blockedPastEnd s.core := by simp [blockedPastEnd, hl]
  have hidx : (goNext cfg s).core.currentIndex = s.core.currentIndex + 1 := by
    by_cases hw : wantsMore s.core
    · simp only [goNext, if_neg hg1, if_neg hg2, if_pos hw]
      simp [loadMore, updateState, hw.2.1, hw.2.2]
    · simp only [goNext, if_neg hg1, if_neg hg2, if_neg hw]
      simp [updateState]
  have hitems : (goNext cfg s).core.items = s.core.items := by
    by_cases hw : wantsMore s.core
    · simp only [goNext, if_neg hg1, if_neg hg2, if_pos hw]
      simp [loadMore, updateState, hw.2.1, hw.2.2]
    · simp only [goNext, if_neg hg1, if_neg hg2, if_neg hw]
      simp [updateState]
  refine ⟨hidx, hitems, fun heq => by omega, fun hle => ?_⟩
  rw [hitems, hidx]
  exact List.getElem?_eq_none (by omega)

theorem goNext_overshoot_witness :
    (goNext defaultConfig sNav).core.currentIndex = sNav.core.currentIndex + 1
    ∧ (goNext defaultConfig sNav).core.items = sNav.core.items
    ∧ (goNext defaultConfig sNav).core.currentIndex = sNav.core.items.length
    ∧ (goNext defaultConfig sNav).core.items[(goNext defaultConfig sNav).core.currentIndex]?
        = none := by
  have h := goNext_overshoot defaultConfig sNav (by decide) (by decide)
  exact ⟨h.1, h.2.1, h.2.2.1 (by decide), h.2.2.2 (by decide)⟩

end FastContents

namespace FastContents

/-! ## C6 -/

/-- C6: `shouldLoadMore(scrollTop, scrollHeight, clientHeight)` is a pure
predicate (a function of the state, mutating nothing): it returns false
whenever `isLoading` is true or `hasMore` is false, and otherwise returns
true iff `(scrollTop + clientHeight) / scrollHeight` is at least the
configured `scrollThreshold`, whose default is 0.8; it computes exactly what
the in-source scroll handler of `FastContent.tsx` computes. -/
theorem shouldLoadMore_scroll_predicate {T : Type} (cfg : Config) (s : Sys T)
    (a b c : ℚ) :
    (s.core.isLoading = true ∨ s.core.hasMore = false →
        shouldLoadMore cfg s a b c = false)
    ∧ (s.core.isLoading = false → s.core.hasMore = true →
        (shouldLoadMore cfg s a b c = true ↔ (a + c) / b ≥ cfg.scrollThreshold))
    ∧ shouldLoadMore cfg s a b c
        = handleScrollFires cfg.scrollThreshold s.core.isLoading s.core.hasMore a b c
    ∧ defaultConfig.scrollThreshold = 8/10 := by
  refine ⟨fun h => ?_, fun h1 h2 => ?_, ?_, rfl⟩
  · unfold shouldLoadMore
    exact if_pos h
  · simp [shouldLoadMore, h1, h2]
  · cases hL : s.core.isLoading <;> cases hM : s.core.hasMore <;>
      simp [shouldLoadMore, handleScrollFires, hL, hM]

theorem shouldLoadMore_scroll_predicate_witness :
    shouldLoadMore defaultConfig sBusy 1800 2000 500 = false
    ∧ shouldLoadMore defaultConfig sNav 1800 2000 500 = true
    ∧ shouldLoadMore defaultConfig sNav 1800 2000 500
        = handleScrollFires defaultConfig.scrollThreshold sNav.core.isLoading
            sNav.core.hasMore 1800 2000 500
    ∧ defaultConfig.scrollThreshold = 8/10 := by
  obtain ⟨-, x2, x3, x4⟩ :=
    shouldLoadMore_scroll_predicate defaultConfig sNav (1800 : ℚ) 2000 500
  obtain ⟨y1, -, -, -⟩ :=
    shouldLoadMore_scroll_predicate defaultConfig sBusy (1800 : ℚ) 2000 500
  refine ⟨y1 (Or.inl (by decide)), ?_, x3, x4⟩
  exact x2 (by decide) (by decide) |>.mpr (by norm_num [defaultConfig])

/-! ## C7 -/

/-- C7: the continuation cursor is written only by a fetch resolution whose
response carries a truthy `nextCursor`; a response omitting it leaves the
cursor intact, so once truthy the cursor stays truthy forever; every fetch
the core issues while the cursor is set includes it in its params alongside
the independently advancing offset; and in the concrete cursor scenario the
second request carries `cursor = "c1"` together with offset 3. -/
theorem cursor_set_once_kept_included {T : Type} (cfg : Config) :
    (∀ (s : Sys T) (ev : Event T),
        (step cfg s ev).currentCursor = s.currentCursor
        ∨ ∃ r : FetchResult T, ev = Event.resolve r ∧ strTruthy r.nextCursor = true
            ∧ (step cfg s ev).currentCursor = r.nextCursor)
    ∧ (∀ (s : Sys T) (r : FetchResult T), strTruthy r.nextCursor = false →
        (fetchResolve r s).currentCursor = s.currentCursor)
    ∧ (∀ (s : Sys T) (ev : Event T), strTruthy s.currentCursor = true →
        strTruthy (step cfg s ev).currentCursor = true)
    ∧ (∀ s : Sys T, strTruthy s.currentCursor = true →
        s.core.isLoading = false → s.core.hasMore = true →
        (loadMore cfg s).fetchLog = s.fetchLog ++ [paramsFor cfg s]
        ∧ (paramsFor cfg s).cursor = s.currentCursor)
    ∧ (run defaultConfig initSys
        [Event.loadMore, Event.resolve ⟨[1, 2, 3], some "c1", true⟩,
         Event.loadMore]).fetchLog
        = [{ offset := 0, limit := 3, cursor := none },
           { offset := 3, limit := 3, cursor := some "c1" }] := by
  have honly : ∀ (s : Sys T) (ev : Event T),
      (step cfg s ev).currentCursor = s.currentCursor
      ∨ ∃ r : FetchResult T, ev = Event.resolve r ∧ strTruthy r.nextCursor = true
          ∧ (step cfg s ev).currentCursor = r.nextCursor := by
    intro s ev
    cases ev
    case loadMore =>
      left
      simp only [step, loadMore]
      split <;> rfl
    case goNext =>
      left
      simp only [step, goNext]
      split
      · rfl
      split
      · rfl
      split
      · simp only [loadMore]
        split <;> rfl
      · rfl
    case goPrev =>
      left
      simp only [step, goPrev]
      split <;> rfl
    case resolve r =>
      rcases hpd : s.pending with - | p
      · left
        simp [step, fetchResolve, hpd]
      · by_cases ht : strTruthy r.nextCursor = true
        · right
          exact ⟨r, rfl, ht, by simp [step, fetchResolve, hpd, updateState, ht]⟩
        · left
          simp only [Bool.not_eq_true] at ht
          simp [step, fetchResolve, hpd, updateState, ht]
    case reject e =>
      left
      simp only [step, fetchReject]
      split <;> rfl
    case subscribe l =>
      left
      simp only [step, subscribe]
      split <;> rfl
    case unsubscribe l => exact Or.inl rfl
    case destroy => exact Or.inl rfl
  refine ⟨honly, fun s r ht => ?_, fun s ev hcur => ?_, fun s hcur h1 h2 => ?_, by decide⟩
  · rcases hpd : s.pending with - | p
    · simp [fetchResolve, hpd]
    · simp [fetchResolve, hpd, updateState, ht]
  · rcases honly s ev with h | ⟨r, -, ht, hc⟩
    · rw [h]
      exact hcur
    · rw [hc]
      exact ht
  · constructor
    · simp [loadMore, updateState, paramsFor, h1, h2]
    · simp [paramsFor, hcur]

/-- A core holding the continuation cursor `"c1"`. -/
def sCursor : Sys Nat :=
  { core := { items := [1, 2, 3], currentIndex := 0, isLoading := false
            , isInitialized := true, error := none, hasMore := true }
  , currentCursor := some "c1", offset := 3, pending := none
  , fetchLog := [], listeners := [], invLog := [] }

theorem cursor_set_once_kept_included_witness :
    ((step defaultConfig sCursor Event.goPrev).currentCursor = sCursor.currentCursor
      ∨ ∃ r : FetchResult Nat, Event.goPrev = Event.resolve r
          ∧ strTruthy r.nextCursor = true
          ∧ (step defaultConfig sCursor Event.goPrev).currentCursor = r.nextCursor)
    ∧ (fetchResolve ⟨[9], none, true⟩ sFetching).currentCursor = sFetching.currentCursor
    ∧ strTruthy (step defaultConfig sCursor Event.goNext).currentCursor = true
    ∧ (loadMore defaultConfig sCursor).fetchLog
        = sCursor.fetchLog ++ [paramsFor defaultConfig sCursor]
    ∧ (paramsFor defaultConfig sCursor).cursor = sCursor.currentCursor
    ∧ (run defaultConfig initSys
        [Event.loadMore, Event.resolve ⟨[1, 2, 3], some "c1", true⟩,
         Event.loadMore]).fetchLog
        = [{ offset := 0, limit := 3, cursor := none },
           { offset := 3, limit := 3, cursor := some "c1" }] := by
  obtain ⟨a, b, c, d, e⟩ := cursor_set_once_kept_included (T := Nat) defaultConfig
  obtain ⟨d1, d2⟩ := d sCursor (by decide) (by decide) (by decide)
  exact ⟨a sCursor Event.goPrev, b sFetching ⟨[9], none, true⟩ (by decide),
    c sCursor Event.goNext (by decide), d1, d2, e⟩

end FastContents

namespace FastContents

/-! ## C8 -/

/-- A step that is not `subscribe` keeps the listener set empty and fires no
notification. -/
theorem step_silent_empty {T : Type} (cfg : Config) (s : Sys T) (ev : Event T)
    (h : s.listeners = []) (hev : ∀ m, ev ≠ Event.subscribe m) :
    (step cfg s ev).listeners = [] ∧ (step cfg s ev).invLog = s.invLog := by
  cases ev
  case loadMore =>
    simp only [step, loadMore]
    split
    · exact ⟨h, rfl⟩
    · simp [updateState, h]
  case goNext =>
    simp only [step, goNext]
    split
    · exact ⟨h, rfl⟩
    split
    · exact ⟨h, rfl⟩
    split
    · simp only [loadMore]
      split <;> simp [updateState, h]
    · simp [updateState, h]
  case goPrev =>
    simp only [step, goPrev]
    split <;> simp [updateState, h]
  case resolve r =>
    simp only [step, fetchResolve]
    split
    · exact ⟨h, rfl⟩
    · simp [updateState, h]
  case reject e =>
    simp only [step, fetchReject]
    split
    · exact ⟨h, rfl⟩
    · simp [updateState, h]
  case subscribe m => exact absurd rfl (hev m)
  case unsubscribe m => simp [step, unsubscribe, h]
  case destroy => exact ⟨rfl, rfl⟩

/-- After the listener set is emptied, any subscribe-free event sequence
leaves the notification log untouched. -/
theorem run_silent_empty {T : Type} (cfg : Config) :
    ∀ (evs : List (Event T)) (s : Sys T), s.listeners = [] →
      (∀ m, Event.subscribe (T := T) m ∉ evs) →
      (run cfg s evs).listeners = [] ∧ (run cfg s evs).invLog = s.invLog
  | [], _, h, _ => ⟨h, rfl⟩
  | e :: es, s, h, hm => by
    have hev : ∀ m, e ≠ Event.subscribe m := by
      intro m he
      exact hm m (he ▸ List.mem_cons_self e es)
    have hs := step_silent_empty cfg s e h hev
    have htail := run_silent_empty cfg es (step cfg s e) hs.1
      (fun m hmem => hm m (List.mem_cons_of_mem _ hmem))
    exact ⟨htail.1, htail.2.trans hs.2⟩

/-- A step that is not `subscribe l` neither registers listener `l` nor
invokes it. -/
theorem step_listener_silent {T : Type} (cfg : Config) (s : Sys T) (ev : Event T)
    (l : Nat) (hnot : l ∉ s.listeners) (hev : ev ≠ Event.subscribe l) :
    l ∉ (step cfg s ev).listeners
    ∧ (step cfg s ev).invLog.count l = s.invLog.count l := by
  have hcount : (s.invLog ++ s.listeners).count l = s.invLog.count l := by
    simp [List.count_append, List.count_eq_zero.mpr hnot]
  cases ev
  case loadMore =>
    simp only [step, loadMore]
    split
    · exact ⟨hnot, rfl⟩
    · exact ⟨by simpa [updateState] using hnot, by simpa [updateState] using hcount⟩
  case goNext =>
    simp only [step, goNext]
    split
    · exact ⟨hnot, rfl⟩
    split
    · exact ⟨hnot, rfl⟩
    split
    · simp only [loadMore]
      split
      · exact ⟨by simpa [updateState] using hnot, by simpa [updateState] using hcount⟩
      · refine ⟨by simpa [updateState] using hnot, ?_⟩
        simp [updateState, List.count_append, List.count_eq_zero.mpr hnot]
    · exact ⟨by simpa [updateState] using hnot, by simpa [updateState] using hcount⟩
  case goPrev =>
    simp only [step, goPrev]
    split
    · exact ⟨by simpa [updateState] using hnot, by simpa [updateState] using hcount⟩
    · exact ⟨hnot, rfl⟩
  case resolve r =>
    simp only [step, fetchResolve]
    split
    · exact ⟨hnot, rfl⟩
    · exact ⟨by simpa [updateState] using hnot, by simpa [updateState] using hcount⟩
  case reject e =>
    simp only [step, fetchReject]
    split
    · exact ⟨hnot, rfl⟩
    · exact ⟨by simpa [updateState] using hnot, by simpa [updateState] using hcount⟩
  case subscribe m =>
    have hml : m ≠ l := fun he => hev (he ▸ rfl)
    simp only [step, subscribe]
    split
    · exact ⟨hnot, rfl⟩
    · refine ⟨?_, rfl⟩
      simp only [List.mem_append, List.mem_singleton]
      rintro (hmem | rfl)
      · exact hnot hmem
      · exact hml rfl
  case unsubscribe m =>
    refine ⟨fun hmem => hnot ?_, rfl⟩
    simpa [step, unsubscribe] using (List.mem_of_mem_filter hmem)
  case destroy => exact ⟨by simp [step, destroy], rfl⟩

/-- Once listener `l` is unregistered, any event sequence that never
re-subscribes `l` adds no invocation of `l` to the log. -/
theorem run_listener_silent {T : Type} (cfg : Config) (l : Nat) :
    ∀ (evs : List (Event T)) (s : Sys T), l ∉ s.listeners →
      Event.subscribe (T := T) l ∉ evs →
      l ∉ (run cfg s evs).listeners
      ∧ (run cfg s evs).invLog.count l = s.invLog.count l
  | [], _, h, _ => ⟨h, rfl⟩
  | e :: es, s, h, hm => by
    have hev : e ≠ Event.subscribe l := by
      intro he
      exact hm (he ▸ List.mem_cons_self e es)
    have hs := step_listener_silent cfg s e l h hev
    have htail := run_listener_silent cfg l es (step cfg s e) hs.1
      (fun hmem => hm (List.mem_cons_of_mem _ hmem))
    exact ⟨htail.1, htail.2.trans hs.2⟩

/-- C8: `destroy` empties the listener registry, and afterwards no
subscribe-free sequence of operations or fetch settlements ever invokes a
listener (the notification log is frozen); the unsubscribe closure removes
its listener from the registry, and an unregistered listener receives zero
further invocations under any sequence of events that does not re-subscribe
it. -/
theorem destroy_and_unsubscribe_silence {T : Type} (cfg : Config) :
    (∀ s : Sys T, (destroy s).listeners = [])
    ∧ (∀ (s : Sys T) (evs : List (Event T)),
        (∀ m, Event.subscribe (T := T) m ∉ evs) →
        (run cfg (destroy s) evs).invLog = (destroy s).invLog)
    ∧ (∀ (s : Sys T) (l : Nat), l ∉ (unsubscribe l s).listeners)
    ∧ (∀ (s : Sys T) (l : Nat) (evs : List (Event T)),
        Event.subscribe (T := T) l ∉ evs →
        (run cfg (unsubscribe l s) evs).invLog.count l
          = (unsubscribe l s).invLog.count l) := by
  refine ⟨fun s => rfl, fun s evs hm => ?_, fun s l => ?_, fun s l evs hm => ?_⟩
  · exact (run_silent_empty cfg evs (destroy s) rfl hm).2
  · intro hmem
    have := List.of_mem_filter hmem
    simp at this
  · have hnot : l ∉ (unsubscribe l s).listeners := by
      intro hmem
      have := List.of_mem_filter hmem
      simp at this
    exact (run_listener_silent cfg l evs (unsubscribe l s) hnot hm).2

/-- A core with two subscribed listeners. -/
def sListeners : Sys Nat :=
  { (initSys : Sys Nat) with listeners := [5, 8] }

theorem destroy_and_unsubscribe_silence_witness :
    (destroy sListeners).listeners = []
    ∧ (run defaultConfig (destroy sListeners)
        [Event.loadMore, Event.goNext, Event.resolve pageA,
         Event.reject (Thrown.nonErr "x"), Event.goPrev]).invLog
        = (destroy sListeners).invLog
    ∧ 5 ∉ (unsubscribe 5 sListeners).listeners
    ∧ (run defaultConfig (unsubscribe 5 sListeners)
        [Event.loadMore, Event.subscribe 8, Event.goNext,
         Event.resolve pageA]).invLog.count 5
      = (unsubscribe 5 sListeners).invLog.count 5 := by
  obtain ⟨a, b, c, d⟩ := destroy_and_unsubscribe_silence (T := Nat) defaultConfig
  refine ⟨a sListeners, b sListeners _ ?_, c sListeners 5, d sListeners 5 _ (by decide)⟩
  intro m hmem
  simp [List.mem_cons] at hmem

end FastContents
